import Mathlib

/-!
Shallow embedding of the SSE2 quaternion kernel (src/src/f32/quat_sse2.rs).

The hardware register `__m128` holds four 32-bit float lanes; we model each
lane as a rational number, so every arithmetic identity of the kernel is
proved exactly (floating-point rounding is abstracted away, matching the
wording of the spec, "up to floating-point reassociation" and "within
tolerance").
Lane order is fixed: index 0 = x, 1 = y, 2 = z, 3 = w.
-/

namespace Glam

/-- Model of the `__m128` register: four single-precision lanes,
each lane modelled as an exact rational. -/
structure M128 where
  lane0 : ℚ
  lane1 : ℚ
  lane2 : ℚ
  lane3 : ℚ
deriving DecidableEq, Repr

/-- Lane projection used by the shuffle intrinsic. -/
def M128.lane (v : M128) : Fin 4 → ℚ
  | 0 => v.lane0
  | 1 => v.lane1
  | 2 => v.lane2
  | 3 => v.lane3

/-- Model of `_mm_set_ps(w, z, y, x)`: the intrinsic takes its arguments from
the highest lane down, so the resulting register is [x, y, z, w]. -/
def mm_set_ps (w z y x : ℚ) : M128 := ⟨x, y, z, w⟩

/-- Model of `_mm_shuffle_ps(a, b, imm)`.  For `imm = 0b i3 i2 i1 i0` (two
bits per field, highest field first) the result is
[a.lane i0, a.lane i1, b.lane i2, b.lane i3]; we pass the four decoded
indices `i0 i1 i2 i3` directly. -/
def mm_shuffle_ps (a b : M128) (i0 i1 i2 i3 : Fin 4) : M128 :=
  ⟨a.lane i0, a.lane i1, b.lane i2, b.lane i3⟩

/-- Model of `_mm_mul_ps`: lane-wise product. -/
def mm_mul_ps (a b : M128) : M128 :=
  ⟨a.lane0 * b.lane0, a.lane1 * b.lane1, a.lane2 * b.lane2, a.lane3 * b.lane3⟩

/-- Model of `_mm_add_ps`: lane-wise sum. -/
def mm_add_ps (a b : M128) : M128 :=
  ⟨a.lane0 + b.lane0, a.lane1 + b.lane1, a.lane2 + b.lane2, a.lane3 + b.lane3⟩

/-- Model of `_mm_cvtss_f32`: extract the lowest lane as a scalar. -/
def mm_cvtss_f32 (a : M128) : ℚ := a.lane0

/-- Model of `_mm_loadu_ps`: read four consecutive floats starting at the
front of the buffer.  In the kernel this is only reached after the length
assert, so the buffer always has at least four elements; the default value
is never used there. -/
def mm_loadu_ps (buf : List ℚ) : M128 :=
  ⟨buf.getD 0 0, buf.getD 1 0, buf.getD 2 0, buf.getD 3 0⟩

/-- Model of `_mm_storeu_ps`: overwrite the first four floats of the buffer
with the four lanes, leaving the rest of the buffer untouched. -/
def mm_storeu_ps (v : M128) (buf : List ℚ) : List ℚ :=
  [v.lane0, v.lane1, v.lane2, v.lane3] ++ buf.drop 4

/-- Modelled from the spec: the collaborator 3D vector type `Vec3`
(its source is not part of this file set).  Three float components,
with the standard componentwise operations, dot and cross products
described in the collaborator contract. -/
structure Vec3 where
  x : ℚ
  y : ℚ
  z : ℚ
deriving DecidableEq, Repr

/-- Modelled from the spec: `Vec3::splat`, all three components equal. -/
def Vec3.splat (s : ℚ) : Vec3 := ⟨s, s, s⟩

/-- Modelled from the spec: `Vec3::dot`, the Euclidean inner product. -/
def Vec3.dot (a b : Vec3) : ℚ := a.x * b.x + a.y * b.y + a.z * b.z

/-- Modelled from the spec: `Vec3::cross`, the right-handed cross product. -/
def Vec3.cross (a b : Vec3) : Vec3 :=
  ⟨a.y * b.z - a.z * b.y, a.z * b.x - a.x * b.z, a.x * b.y - a.y * b.x⟩

/-- Modelled from the spec: componentwise `Vec3` product. -/
def Vec3.mul (a b : Vec3) : Vec3 := ⟨a.x * b.x, a.y * b.y, a.z * b.z⟩

/-- Modelled from the spec: componentwise `Vec3` sum. -/
def Vec3.add (a b : Vec3) : Vec3 := ⟨a.x + b.x, a.y + b.y, a.z + b.z⟩

/-- Modelled from the spec: componentwise `Vec3` difference. -/
def Vec3.sub (a b : Vec3) : Vec3 := ⟨a.x - b.x, a.y - b.y, a.z - b.z⟩

instance : Mul Vec3 := ⟨Vec3.mul⟩

instance : Add Vec3 := ⟨Vec3.add⟩

instance : Sub Vec3 := ⟨Vec3.sub⟩

/-- Modelled from the spec: `f32 * Vec3`, scaling every component. -/
def Vec3.smulLeft (s : ℚ) (a : Vec3) : Vec3 := ⟨s * a.x, s * a.y, s * a.z⟩

instance : HMul ℚ Vec3 Vec3 := ⟨Vec3.smulLeft⟩

/-- Squared Euclidean length of a `Vec3` (exact model of `length_squared`). -/
def Vec3.normSq (a : Vec3) : ℚ := a.x * a.x + a.y * a.y + a.z * a.z

/-- Modelled from the spec: the collaborator 4D vector type `Vec4`, which on
this target wraps the same `__m128` register with the identical lane
layout (x, y, z, w). -/
structure Vec4 where
  m : M128
deriving DecidableEq, Repr

/-- Modelled from the spec: `Vec4::dup_w`, a lane broadcast of lane 3
(the w lane) across the whole register. -/
def Vec4.dup_w (v : Vec4) : Vec4 := ⟨mm_shuffle_ps v.m v.m 3 3 3 3⟩

/-- Modelled from the spec: `Vec4::truncate`, dropping the w lane to
produce the 3D vector (x, y, z). -/
def Vec4.truncate (v : Vec4) : Vec3 := ⟨v.m.lane0, v.m.lane1, v.m.lane2⟩

/-- `Quat(__m128)`: a quaternion packed as the four lanes (x, y, z, w). -/
structure Quat where
  m : M128
deriving DecidableEq, Repr

/-- `Quat::new(x, y, z, w)`: `_mm_set_ps(w, z, y, x)`.  The unit-norm
assert in the source is commented out, so nothing is checked. -/
def Quat.new (x y z w : ℚ) : Quat := ⟨mm_set_ps w z y x⟩

/-- `Quat::w`: broadcast lane 3 with `_mm_shuffle_ps(q, q, 0b11_11_11_11)`
and extract the lowest lane with `_mm_cvtss_f32`. -/
def Quat.w (self : Quat) : ℚ :=
  mm_cvtss_f32 (mm_shuffle_ps self.m self.m 3 3 3 3)

/-- `Quat::identity`: `_mm_set_ps(1.0, 0.0, 0.0, 0.0)`. -/
def Quat.identity : Quat := ⟨mm_set_ps 1 0 0 0⟩

/-- `Quat::from_slice_unaligned`: asserts `slice.len() >= 4` (a failed
assert panics, modelled as `none`), then `_mm_loadu_ps` of the first four
floats.  The `glam_assert` on the norm is debug-only and compiled out. -/
def Quat.from_slice_unaligned (slice : List ℚ) : Option Quat :=
  if 4 ≤ slice.length then some ⟨mm_loadu_ps slice⟩ else none

/-- `Quat::write_to_slice_unaligned`: asserts `slice.len() >= 4` before any
store (a failed assert panics, modelled as `none`, with the buffer
unchanged), then `_mm_storeu_ps` of the four lanes into the buffer. -/
def Quat.write_to_slice_unaligned (self : Quat) (slice : List ℚ) :
    Option (List ℚ) :=
  if 4 ≤ slice.length then some (mm_storeu_ps self.m slice) else none

/-- `Quat::mul_quat`, the SSE2 Hamilton product from RTM, transcribed
shuffle for shuffle.  Shuffle immediates are decoded as documented at
`mm_shuffle_ps`: `0b00_01_10_11` is indices (3, 2, 1, 0) and
`0b10_11_00_01` is indices (1, 0, 3, 2). -/
def Quat.mul_quat (self rhs : Quat) : Quat :=
  let lhs := self.m
  let rhs := rhs.m
  let CONTROL_WZYX : M128 := ⟨1, -1, 1, -1⟩
  let CONTROL_ZWXY : M128 := ⟨1, 1, -1, -1⟩
  let CONTROL_YXWZ : M128 := ⟨-1, 1, 1, -1⟩
  let r_xxxx := mm_shuffle_ps lhs lhs 0 0 0 0
  let r_yyyy := mm_shuffle_ps lhs lhs 1 1 1 1
  let r_zzzz := mm_shuffle_ps lhs lhs 2 2 2 2
  let r_wwww := mm_shuffle_ps lhs lhs 3 3 3 3
  let lxrw_lyrw_lzrw_lwrw := mm_mul_ps r_wwww rhs
  let l_wzyx := mm_shuffle_ps rhs rhs 3 2 1 0
  let lwrx_lzrx_lyrx_lxrx := mm_mul_ps r_xxxx l_wzyx
  let l_zwxy := mm_shuffle_ps l_wzyx l_wzyx 1 0 3 2
  let lwrx_nlzrx_lyrx_nlxrx := mm_mul_ps lwrx_lzrx_lyrx_lxrx CONTROL_WZYX
  let lzry_lwry_lxry_lyry := mm_mul_ps r_yyyy l_zwxy
  let l_yxwz := mm_shuffle_ps l_zwxy l_zwxy 3 2 1 0
  let lzry_lwry_nlxry_nlyry := mm_mul_ps lzry_lwry_lxry_lyry CONTROL_ZWXY
  let lyrz_lxrz_lwrz_lzrz := mm_mul_ps r_zzzz l_yxwz
  let result0 := mm_add_ps lxrw_lyrw_lzrw_lwrw lwrx_nlzrx_lyrx_nlxrx
  let nlyrz_lxrz_lwrz_wlzrz := mm_mul_ps lyrz_lxrz_lwrz_lzrz CONTROL_YXWZ
  let result1 := mm_add_ps lzry_lwry_nlxry_nlyry nlyrz_lxrz_lwrz_wlzrz
  ⟨mm_add_ps result0 result1⟩

/-- Conversion `From<Vec4> for Quat`: reuse the register. -/
def quatOfVec4 (v : Vec4) : Quat := ⟨v.m⟩

/-- Conversion `From<Quat> for Vec4`: reuse the register. -/
def vec4OfQuat (q : Quat) : Vec4 := ⟨q.m⟩

/-- `Quat::mul_vec3`, the Euler-Rodrigues rotation, transcribed line by
line from the source. -/
def Quat.mul_vec3 (self : Quat) (rhs : Vec3) : Vec3 :=
  let q : Vec4 := vec4OfQuat self
  let w := q.dup_w.truncate
  let two := Vec3.splat 2
  let b := q.truncate
  let b2 := Vec3.splat (b.dot b)
  rhs * (w * w - b2) + b * (rhs.dot b * two) + b.cross rhs * (w * two)

/-- Conversion `From<Quat> for (f32, f32, f32, f32)`: `_mm_store_ps` into a
16-byte-aligned scratch tuple, which lays the four lanes out in order. -/
def tupleOfQuat (q : Quat) : ℚ × ℚ × ℚ × ℚ :=
  (q.m.lane0, q.m.lane1, q.m.lane2, q.m.lane3)

/-- Modelled from the spec: the tuple-to-quaternion conversion listed in the
conversion table (its source is not part of this file set); it packs the
four floats (x, y, z, w) into the four lanes in order. -/
def quatOfTuple (t : ℚ × ℚ × ℚ × ℚ) : Quat :=
  ⟨mm_loadu_ps [t.1, t.2.1, t.2.2.1, t.2.2.2]⟩

/-- Conversion `From<[f32; 4]> for Quat`: `_mm_loadu_ps` of the array. -/
def quatOfArray (a : ℚ × ℚ × ℚ × ℚ) : Quat :=
  ⟨mm_loadu_ps [a.1, a.2.1, a.2.2.1, a.2.2.2]⟩

/-- Conversion `From<Quat> for [f32; 4]`: `_mm_store_ps` into a
16-byte-aligned scratch array, which lays the four lanes out in order. -/
def arrayOfQuat (q : Quat) : ℚ × ℚ × ℚ × ℚ :=
  (q.m.lane0, q.m.lane1, q.m.lane2, q.m.lane3)

/-- The spec formula for vector rotation, written directly from the words of
the spec: `result = v*(w² − dot(b,b)) + b*(dot(v,b)*2) + cross(b, v)*(2w)`
with `b` the vector part and `w` the scalar part of the quaternion. -/
def rotateSpec (q : Quat) (v : Vec3) : Vec3 :=
  let b : Vec3 := ⟨q.m.lane0, q.m.lane1, q.m.lane2⟩
  let w : ℚ := q.m.lane3
  (w * w - Vec3.dot b b) * v + (Vec3.dot v b * 2) * b + (2 * w) * b.cross v

end Glam

namespace Glam

/-- Unfolding lemma for the componentwise `Vec3` product instance. -/
theorem Vec3.mul_def (a b : Vec3) :
    a * b = ⟨a.x * b.x, a.y * b.y, a.z * b.z⟩ := rfl

/-- Unfolding lemma for the componentwise `Vec3` sum instance. -/
theorem Vec3.add_def (a b : Vec3) :
    a + b = ⟨a.x + b.x, a.y + b.y, a.z + b.z⟩ := rfl

/-- Unfolding lemma for the componentwise `Vec3` difference instance. -/
theorem Vec3.sub_def (a b : Vec3) :
    a - b = ⟨a.x - b.x, a.y - b.y, a.z - b.z⟩ := rfl

/-- Unfolding lemma for the scalar-times-`Vec3` instance. -/
theorem Vec3.smul_def (s : ℚ) (a : Vec3) :
    s * a = ⟨s * a.x, s * a.y, s * a.z⟩ := rfl

/-- Claim C1: for all quaternions q1 = (x1, y1, z1, w1) and
q2 = (x2, y2, z2, w2), `mul_quat q1 q2` equals the textbook Hamilton
product: w = w1w2 - x1x2 - y1y2 - z1z2, x = w1x2 + x1w2 + y1z2 - z1y2,
y = w1y2 + y1w2 + z1x2 - x1z2, z = w1z2 + z1w2 + x1y2 - y1x2
(exactly, in the exact-arithmetic lane model). -/
theorem mul_quat_eq_hamilton (x1 y1 z1 w1 x2 y2 z2 w2 : ℚ) :
    Quat.mul_quat (Quat.new x1 y1 z1 w1) (Quat.new x2 y2 z2 w2) =
      Quat.new
        (w1 * x2 + x1 * w2 + y1 * z2 - z1 * y2)
        (w1 * y2 + y1 * w2 + z1 * x2 - x1 * z2)
        (w1 * z2 + z1 * w2 + x1 * y2 - y1 * x2)
        (w1 * w2 - x1 * x2 - y1 * y2 - z1 * z2) := by
  simp only [Quat.mul_quat, Quat.new, mm_set_ps, mm_shuffle_ps, mm_mul_ps,
    mm_add_ps, M128.lane, Quat.mk.injEq, M128.mk.injEq]
  refine ⟨?_, ?_, ?_, ?_⟩ <;> ring

/-- Claim C2: for every quaternion with vector part b = (x, y, z) and
scalar part w and every 3D vector v, `mul_vec3` equals the closed-form
Euler-Rodrigues expansion v*(w^2 - dot(b,b)) + b*(dot(v,b)*2) +
cross(b,v)*(2w); no rotation matrix is built and no unit check is made
(the definition of `mul_vec3` has no normalization hypothesis). -/
theorem mul_vec3_eq_euler_rodrigues (x y z w vx vy vz : ℚ) :
    Quat.mul_vec3 (Quat.new x y z w) ⟨vx, vy, vz⟩ =
      rotateSpec (Quat.new x y z w) ⟨vx, vy, vz⟩ := by
  simp only [Quat.mul_vec3, rotateSpec, Quat.new, mm_set_ps, vec4OfQuat,
    Vec4.dup_w, Vec4.truncate, mm_shuffle_ps, M128.lane, Vec3.splat,
    Vec3.dot, Vec3.cross, Vec3.mul_def, Vec3.add_def, Vec3.sub_def,
    Vec3.smul_def, Vec3.mk.injEq]
  refine ⟨?_, ?_, ?_⟩ <;> ring

/-- Claim C3: `from_slice_unaligned` and `write_to_slice_unaligned` panic
(modelled as `none`) on every slice of length 0, 1, 2 or 3, and succeed on
every slice of length at least 4, reading only the first four elements
(the result is unchanged by truncating the slice to its first four)
and writing only the first four elements (everything past index 3 is the
original tail of the slice). -/
theorem slice_ops_length_contract (q : Quat) (s : List ℚ) :
    (s.length < 4 →
      Quat.from_slice_unaligned s = none ∧
      q.write_to_slice_unaligned s = none) ∧
    (4 ≤ s.length →
      Quat.from_slice_unaligned s = Quat.from_slice_unaligned (s.take 4) ∧
      (Quat.from_slice_unaligned s).isSome = true ∧
      q.write_to_slice_unaligned s =
        some ([q.m.lane0, q.m.lane1, q.m.lane2, q.m.lane3] ++ s.drop 4)) := by
  constructor
  · intro h
    have h4 : ¬ 4 ≤ s.length := by omega
    simp [Quat.from_slice_unaligned, Quat.write_to_slice_unaligned, h4]
  · intro h
    have ht : (s.take 4).length = 4 := by simp [List.length_take]; omega
    refine ⟨?_, ?_, ?_⟩
    · simp only [Quat.from_slice_unaligned, h, ht, le_refl, if_true,
        if_pos, mm_loadu_ps]
      have h0 : s.getD 0 0 = (s.take 4).getD 0 0 := by
        simp [List.getD, List.getElem?_take]
      have h1 : s.getD 1 0 = (s.take 4).getD 1 0 := by
        simp [List.getD, List.getElem?_take]
      have h2 : s.getD 2 0 = (s.take 4).getD 2 0 := by
        simp [List.getD, List.getElem?_take]
      have h3 : s.getD 3 0 = (s.take 4).getD 3 0 := by
        simp [List.getD, List.getElem?_take]
      rw [h0, h1, h2, h3]
    · simp [Quat.from_slice_unaligned, h]
    · simp [Quat.write_to_slice_unaligned, h, mm_storeu_ps]

/-- Witness for C3 at concrete inputs: length 2 fails for both operations,
length 5 succeeds with only the first four elements consumed or written. -/
theorem slice_ops_length_contract_witness :
    (Quat.from_slice_unaligned [1, 2] = none ∧
      (Quat.new 1 2 3 4).write_to_slice_unaligned [1, 2] = none) ∧
    (Quat.from_slice_unaligned [5, 6, 7, 8, 9] =
        Quat.from_slice_unaligned [5, 6, 7, 8] ∧
      (Quat.from_slice_unaligned [5, 6, 7, 8, 9]).isSome = true ∧
      (Quat.new 1 2 3 4).write_to_slice_unaligned [5, 6, 7, 8, 9] =
        some [1, 2, 3, 4, 9]) := by
  have h1 := (slice_ops_length_contract (Quat.new 1 2 3 4) [1, 2]).1
    (by decide)
  have h2 := (slice_ops_length_contract (Quat.new 1 2 3 4) [5, 6, 7, 8, 9]).2
    (by decide)
  exact ⟨h1, by simpa using h2⟩

/-- Claim C4: `identity` returns the quaternion (0, 0, 0, 1) and, for every
unit quaternion q, is a two-sided identity for `mul_quat` (exactly, in the
exact-arithmetic lane model). -/
theorem identity_is_two_sided_unit (q : Quat)
    (h : q.m.lane0 ^ 2 + q.m.lane1 ^ 2 + q.m.lane2 ^ 2 + q.m.lane3 ^ 2 = 1) :
    Quat.identity = Quat.new 0 0 0 1 ∧
    q.mul_quat Quat.identity = q ∧ Quat.identity.mul_quat q = q := by
  obtain ⟨⟨a, b, c, d⟩⟩ := q
  refine ⟨rfl, ?_, ?_⟩ <;>
  · simp only [Quat.mul_quat, Quat.identity, mm_set_ps, mm_shuffle_ps,
      mm_mul_ps, mm_add_ps, M128.lane, Quat.mk.injEq, M128.mk.injEq]
    refine ⟨?_, ?_, ?_, ?_⟩ <;> ring

/-- Witness for C4 at the concrete unit quaternion (0, 0, 1, 0). -/
theorem identity_is_two_sided_unit_witness :
    ((Quat.new 0 0 1 0).m.lane0 ^ 2 + (Quat.new 0 0 1 0).m.lane1 ^ 2 +
        (Quat.new 0 0 1 0).m.lane2 ^ 2 + (Quat.new 0 0 1 0).m.lane3 ^ 2 = 1) ∧
    (Quat.identity = Quat.new 0 0 0 1 ∧
      (Quat.new 0 0 1 0).mul_quat Quat.identity = Quat.new 0 0 1 0 ∧
      Quat.identity.mul_quat (Quat.new 0 0 1 0) = Quat.new 0 0 1 0) :=
  ⟨by norm_num [Quat.new, mm_set_ps],
    identity_is_two_sided_unit (Quat.new 0 0 1 0)
      (by norm_num [Quat.new, mm_set_ps])⟩

/-- Claim C5: array, tuple and `Vec4` conversions round-trip every
quaternion bit for bit (exact equality of all four lanes). -/
theorem conversion_round_trip (q : Quat) :
    quatOfArray (arrayOfQuat q) = q ∧
    quatOfTuple (tupleOfQuat q) = q ∧
    quatOfVec4 (vec4OfQuat q) = q := by
  obtain ⟨⟨a, b, c, d⟩⟩ := q
  exact ⟨rfl, rfl, rfl⟩

/-- Claim C6: rotation preserves length.  For every unit quaternion and
every vector v, the squared Euclidean length of `mul_vec3 q v` equals the
squared Euclidean length of v (exactly, in the exact-arithmetic lane
model, hence the lengths are equal as well). -/
theorem mul_vec3_preserves_normSq (x y z w vx vy vz : ℚ)
    (h : x ^ 2 + y ^ 2 + z ^ 2 + w ^ 2 = 1) :
    Vec3.normSq (Quat.mul_vec3 (Quat.new x y z w) ⟨vx, vy, vz⟩) =
      Vec3.normSq ⟨vx, vy, vz⟩ := by
  simp only [Quat.mul_vec3, Quat.new, mm_set_ps, vec4OfQuat, Vec4.dup_w,
    Vec4.truncate, mm_shuffle_ps, M128.lane, Vec3.splat, Vec3.dot,
    Vec3.cross, Vec3.mul_def, Vec3.add_def, Vec3.sub_def, Vec3.smul_def,
    Vec3.normSq]
  linear_combination (x ^ 2 + y ^ 2 + z ^ 2 + w ^ 2 + 1) *
    (vx ^ 2 + vy ^ 2 + vz ^ 2) * h

/-- Witness for C6 at the concrete unit quaternion (3/5, 4/5, 0, 0) and
vector (1, 2, 3). -/
theorem mul_vec3_preserves_normSq_witness :
    ((3 / 5 : ℚ) ^ 2 + (4 / 5) ^ 2 + 0 ^ 2 + 0 ^ 2 = 1) ∧
    Vec3.normSq (Quat.mul_vec3 (Quat.new (3 / 5) (4 / 5) 0 0) ⟨1, 2, 3⟩) =
      Vec3.normSq ⟨1, 2, 3⟩ :=
  ⟨by norm_num,
    mul_vec3_preserves_normSq (3 / 5) (4 / 5) 0 0 1 2 3 (by norm_num)⟩

/-- Claim C7: rotating any 3D vector by the identity quaternion returns
the vector unchanged. -/
theorem identity_mul_vec3 (v : Vec3) : Quat.identity.mul_vec3 v = v := by
  obtain ⟨a, b, c⟩ := v
  simp only [Quat.mul_vec3, Quat.identity, mm_set_ps, vec4OfQuat,
    Vec4.dup_w, Vec4.truncate, mm_shuffle_ps, M128.lane, Vec3.splat,
    Vec3.dot, Vec3.cross, Vec3.mul_def, Vec3.add_def, Vec3.sub_def,
    Vec3.smul_def, Vec3.mk.injEq]
  refine ⟨?_, ?_, ?_⟩ <;> ring

/-- Claim C8: for every quaternion and every buffer of length exactly 4,
writing with `write_to_slice_unaligned` succeeds, and reading the written
buffer back with `from_slice_unaligned` returns exactly the quaternion
that was written.  Alignment does not appear: both operations use the
unaligned load/store whose semantics is independent of alignment. -/
theorem slice_write_read_round_trip (q : Quat) (s : List ℚ)
    (h : s.length = 4) :
    ∃ out, q.write_to_slice_unaligned s = some out ∧
      Quat.from_slice_unaligned out = some q := by
  obtain ⟨⟨a, b, c, d⟩⟩ := q
  refine ⟨[a, b, c, d], ?_, rfl⟩
  have h4 : (4 : ℕ) ≤ s.length := by omega
  have hd : s.drop 4 = [] := by
    rw [List.drop_eq_nil_iff]
    omega
  simp [Quat.write_to_slice_unaligned, mm_storeu_ps, h4, hd]

/-- Witness for C8 at the concrete quaternion (1, 2, 3, 4) and buffer
[5, 6, 7, 8]. -/
theorem slice_write_read_round_trip_witness :
    (([5, 6, 7, 8] : List ℚ).length = 4) ∧
    ∃ out,
      (Quat.new 1 2 3 4).write_to_slice_unaligned [5, 6, 7, 8] = some out ∧
      Quat.from_slice_unaligned out = some (Quat.new 1 2 3 4) :=
  ⟨rfl, slice_write_read_round_trip (Quat.new 1 2 3 4) [5, 6, 7, 8] rfl⟩

/-- Claim C9: the `w` accessor returns exactly the fourth stored lane
(lane index 3) of every quaternion; in particular on `new x y z w` it
returns w. -/
theorem w_extracts_lane3 (q : Quat) (x y z w : ℚ) :
    q.w = q.m.lane3 ∧ (Quat.new x y z w).w = w :=
  ⟨rfl, rfl⟩

/-- Claim C10: `write_to_slice_unaligned` checks the length before any
store, so on a slice shorter than 4 it fails without writing anything:
in the model the panic (`none`) is raised and no output buffer is
produced, the input buffer being left untouched. -/
theorem write_atomic_on_failure (q : Quat) (s : List ℚ)
    (h : s.length < 4) :
    q.write_to_slice_unaligned s = none := by
  have h4 : ¬ 4 ≤ s.length := by omega
  simp [Quat.write_to_slice_unaligned, h4]

/-- Witness for C10 at the concrete quaternion (1, 2, 3, 4) and the
length-3 buffer [9, 9, 9]. -/
theorem write_atomic_on_failure_witness :
    (([9, 9, 9] : List ℚ).length < 4) ∧
    (Quat.new 1 2 3 4).write_to_slice_unaligned [9, 9, 9] = none :=
  ⟨by decide, write_atomic_on_failure (Quat.new 1 2 3 4) [9, 9, 9]
    (by decide)⟩

end Glam
